import Mathlib

/-!
Verification of the PyBaMM model-assembly specification against the
repository sources.  The repository ships `pybamm/models/lithium_ion/spme.py`
(a caller of the assembly framework), `test_interpolant.py` (a caller of
`pybamm.Interpolant`) and `setup.py` (the build script containing
`compile_KLU`).  The assembly framework itself (expression tree, variable
registry, model aggregator, interpolant) is not part of the sources, so those
components are modelled from the specification; `compile_KLU` is embedded
directly from `setup.py`.
-/

deriving instance DecidableEq for Except

namespace PyBaMM

/-- Modelled from the spec: the spatial regions of the one-dimensional
whole-cell macro domain ("negative electrode" / "separator" / "positive
electrode"), as used by `SPMe.__init__` and by `orphans`. -/
inductive Region where
  | negativeElectrode
  | separator
  | positiveElectrode
  deriving DecidableEq, Repr

/-- Modelled from the spec: the symbolic expression tree (`pybamm.Symbol`
and friends are not part of the sources).  Nodes are constants, state
variables, time, arithmetic compositions, `pybamm.Broadcast` (replication of
an expression into a wider domain) and the three-region concatenation that a
whole-cell variable such as `c_e` is made of (`orphans` splits it back). -/
inductive Expr where
  | const (c : Int)
  | stateVar (name : String)
  | time
  | add (a b : Expr)
  | sub (a b : Expr)
  | mul (a b : Expr)
  | broadcast (child : Expr) (dom : List Region)
  | concat (neg sep pos : Expr)
  deriving DecidableEq, Repr

/-- Modelled from the spec: `evaluate(state, params, t)` at a spatial point.
A point of the whole-cell domain is a region together with a coordinate in
that region; `σ` assigns field values to state variables.  `broadcast`
replicates its child's value across the target domain, and `concat`
dispatches to the sub-expression owning the point's region. -/
def Expr.eval (σ : String → Region → Nat → Int) (t : Int) :
    Expr → Region → Nat → Int
  | .const c, _, _ => c
  | .stateVar n, r, x => σ n r x
  | .time, _, _ => t
  | .add a b, r, x => a.eval σ t r x + b.eval σ t r x
  | .sub a b, r, x => a.eval σ t r x - b.eval σ t r x
  | .mul a b, r, x => a.eval σ t r x * b.eval σ t r x
  | .broadcast e _, r, x => e.eval σ t r x
  | .concat en es ep, r, x =>
    match r with
    | .negativeElectrode => en.eval σ t r x
    | .separator => es.eval σ t r x
    | .positiveElectrode => ep.eval σ t r x

/-- A scalar expression: one built only from constants, time and arithmetic,
hence with a point-independent value. -/
def Expr.scalar : Expr → Bool
  | .const _ => true
  | .stateVar _ => false
  | .time => true
  | .add a b => a.scalar && b.scalar
  | .sub a b => a.scalar && b.scalar
  | .mul a b => a.scalar && b.scalar
  | .broadcast _ _ => false
  | .concat _ _ _ => false

/-- Modelled from the spec: `orphans` on a composite whole-cell expression
splits it into its per-region sub-expressions (negative / separator /
positive); on any non-composite node there is nothing to split. -/
def Expr.orphans : Expr → Option (Expr × Expr × Expr)
  | .concat en es ep => some (en, es, ep)
  | _ => none

/-- A scalar expression evaluates to the same value at every spatial point. -/
theorem scalar_eval_point_independent (e : Expr) (h : e.scalar = true)
    (σ : String → Region → Nat → Int) (t : Int) (r r' : Region) (x x' : Nat) :
    e.eval σ t r x = e.eval σ t r' x' := by
  induction e with
  | const c => rfl
  | stateVar n => simp [Expr.scalar] at h
  | time => rfl
  | add a b iha ihb =>
    simp only [Expr.scalar, Bool.and_eq_true] at h
    simp [Expr.eval, iha h.1, ihb h.2]
  | sub a b iha ihb =>
    simp only [Expr.scalar, Bool.and_eq_true] at h
    simp [Expr.eval, iha h.1, ihb h.2]
  | mul a b iha ihb =>
    simp only [Expr.scalar, Bool.and_eq_true] at h
    simp [Expr.eval, iha h.1, ihb h.2]
  | broadcast e dom ih => simp [Expr.scalar] at h
  | concat en es ep ihn ihs ihp => simp [Expr.scalar] at h

/-- Claim C5: broadcasting a scalar expression `s` to a domain `D` and then
evaluating the broadcast expression at any point of `D` yields the same value
as evaluating `s` itself (at any point, since a scalar's value is
point-independent). -/
theorem broadcast_scalar_round_trip (s : Expr) (hs : s.scalar = true)
    (D : List Region) (σ : String → Region → Nat → Int) (t : Int)
    (r : Region) (hr : r ∈ D) (x : Nat) (r' : Region) (x' : Nat) :
    (Expr.broadcast s D).eval σ t r x = s.eval σ t r' x' := by
  show s.eval σ t r x = s.eval σ t r' x'
  exact scalar_eval_point_independent s hs σ t r r' x x'

/-- Witness for C5: a concrete scalar broadcast to the negative electrode
evaluates there to the scalar's value. -/
theorem broadcast_scalar_round_trip_witness :
    (Expr.add (Expr.const 3) Expr.time).scalar = true ∧
    Region.negativeElectrode ∈ [Region.negativeElectrode, Region.separator] ∧
    (Expr.broadcast (Expr.add (Expr.const 3) Expr.time)
        [Region.negativeElectrode, Region.separator]).eval
        (fun _ _ _ => 0) 4 Region.negativeElectrode 2 =
      (Expr.add (Expr.const 3) Expr.time).eval
        (fun _ _ _ => 0) 4 Region.positiveElectrode 9 :=
  ⟨by decide, by decide,
    broadcast_scalar_round_trip (Expr.add (Expr.const 3) Expr.time) (by decide)
      [Region.negativeElectrode, Region.separator] (fun _ _ _ => 0) 4
      Region.negativeElectrode (by decide) 2 Region.positiveElectrode 9⟩

/-- Claim C6: splitting a whole-cell expression via `orphans` into its
(negative, separator, positive) sub-expressions and re-broadcasting each
piece back to its original sub-range reproduces the original expression's
values on that sub-range. -/
theorem orphans_rebroadcast_round_trip (e en es ep : Expr)
    (h : e.orphans = some (en, es, ep))
    (σ : String → Region → Nat → Int) (t : Int) (x : Nat) :
    (Expr.broadcast en [Region.negativeElectrode]).eval σ t
        Region.negativeElectrode x = e.eval σ t Region.negativeElectrode x ∧
    (Expr.broadcast es [Region.separator]).eval σ t
        Region.separator x = e.eval σ t Region.separator x ∧
    (Expr.broadcast ep [Region.positiveElectrode]).eval σ t
        Region.positiveElectrode x = e.eval σ t Region.positiveElectrode x := by
  cases e <;> simp [Expr.orphans] at h
  obtain ⟨h1, h2, h3⟩ := h
  subst h1; subst h2; subst h3
  exact ⟨rfl, rfl, rfl⟩

/-- Witness for C6: the orphans of a concrete three-region concatenation,
re-broadcast to their regions, agree with the concatenation there. -/
theorem orphans_rebroadcast_round_trip_witness :
    (Expr.concat (Expr.stateVar "a") (Expr.const 5)
        (Expr.stateVar "b")).orphans =
      some (Expr.stateVar "a", Expr.const 5, Expr.stateVar "b") ∧
    ((Expr.broadcast (Expr.stateVar "a") [Region.negativeElectrode]).eval
        (fun _ _ x => Int.ofNat x) 0 Region.negativeElectrode 7 =
      (Expr.concat (Expr.stateVar "a") (Expr.const 5)
          (Expr.stateVar "b")).eval
        (fun _ _ x => Int.ofNat x) 0 Region.negativeElectrode 7 ∧
    (Expr.broadcast (Expr.const 5) [Region.separator]).eval
        (fun _ _ x => Int.ofNat x) 0 Region.separator 7 =
      (Expr.concat (Expr.stateVar "a") (Expr.const 5)
          (Expr.stateVar "b")).eval
        (fun _ _ x => Int.ofNat x) 0 Region.separator 7 ∧
    (Expr.broadcast (Expr.stateVar "b") [Region.positiveElectrode]).eval
        (fun _ _ x => Int.ofNat x) 0 Region.positiveElectrode 7 =
      (Expr.concat (Expr.stateVar "a") (Expr.const 5)
          (Expr.stateVar "b")).eval
        (fun _ _ x => Int.ofNat x) 0 Region.positiveElectrode 7) :=
  ⟨by decide,
    orphans_rebroadcast_round_trip
      (Expr.concat (Expr.stateVar "a") (Expr.const 5) (Expr.stateVar "b"))
      (Expr.stateVar "a") (Expr.const 5) (Expr.stateVar "b") (by decide)
      (fun _ _ x => Int.ofNat x) 0 7⟩

/-- Modelled from the spec: the assembly-time error taxonomy (§7). -/
inductive AssemblyError where
  | domainMismatchError
  | duplicateVariableError
  | unresolvedReferenceError
  | unknownDomainError
  | missingEquationError
  | frozenModelError
  | unknownParameterError
  deriving DecidableEq, Repr

/-- Modelled from the spec: the Variable Registry's `declare` (the
`pybamm.standard_variables` declarations used at `spme.py` lines 25-27 are
not part of the sources).  The registry records the state-variable names
declared in the current build pass; declaring a name already present fails
with a `DuplicateVariableError`. -/
def declare (reg : List String) (name : String) :
    Except AssemblyError (List String) :=
  if name ∈ reg then .error .duplicateVariableError
  else .ok (reg ++ [name])

/-- Modelled from the spec: a submodel contribution — ordered governing
equations keyed by state-variable name, named output variables, and
termination events (the `pybamm.particle` / `pybamm.electrolyte_diffusion`
submodel classes are not part of the sources). -/
structure Contribution where
  equations : List (String × Expr)
  namedVariables : List (String × Expr)
  events : List Expr
  deriving DecidableEq, Repr

/-- Modelled from the spec: the aggregate model under construction — ordered
equation list, insertion-ordered named-variable dict, ordered event list,
and the frozen flag set by `freeze`. -/
structure Model where
  equations : List (String × Expr)
  namedVariables : List (String × Expr)
  events : List Expr
  frozen : Bool
  deriving DecidableEq, Repr

/-- The model a base-model constructor starts from: nothing merged yet. -/
def emptyModel : Model := ⟨[], [], [], false⟩

/-- Insert-or-replace on the insertion-ordered named-variable dict: an
existing key keeps its position and gets the new expression (last writer
wins), a new key is appended at the end. -/
def upsertVar : List (String × Expr) → String → Expr → List (String × Expr)
  | [], k, v => [(k, v)]
  | p :: rest, k, v =>
    if p.1 = k then (k, v) :: rest else p :: upsertVar rest k v

/-- Merge a contribution's named-variable dict into the model's, later
entries overriding earlier ones key by key. -/
def mergeVariables (vars news : List (String × Expr)) :
    List (String × Expr) :=
  news.foldl (fun acc p => upsertVar acc p.1 p.2) vars

/-- Lookup in the insertion-ordered named-variable dict
(`self.variables[name]`). -/
def lookupVar : List (String × Expr) → String → Option Expr
  | [], _ => none
  | p :: rest, k => if p.1 = k then some p.2 else lookupVar rest k

/-- The state-variable names governed by an equation list. -/
def eqKeys (eqs : List (String × Expr)) : List String := eqs.map Prod.fst

/-- The governed names of concatenated equation lists concatenate. -/
theorem eqKeys_append (a b : List (String × Expr)) :
    eqKeys (a ++ b) = eqKeys a ++ eqKeys b := List.map_append _ _ _

/-- Modelled from the spec: `update(contribution)` — one merge step of the
Model Aggregator.  A frozen model rejects the merge with a
`FrozenModelError`; a state-variable-name collision (within the batch or
with an already-merged equation) is rejected with a
`DuplicateVariableError`; otherwise equations and events are appended in
order and the named-variable dict is merged with last-writer-wins
override. -/
def Model.update (m : Model) (c : Contribution) :
    Except AssemblyError Model :=
  if m.frozen then .error .frozenModelError
  else if (eqKeys m.equations ++ eqKeys c.equations).Nodup then
    .ok { equations := m.equations ++ c.equations
          namedVariables := mergeVariables m.namedVariables c.namedVariables
          events := m.events ++ c.events
          frozen := false }
  else .error .duplicateVariableError

/-- Merge a list of contributions in call order
(`self.update(a, b, c)`). -/
def updateAll (m : Model) : List Contribution → Except AssemblyError Model
  | [] => .ok m
  | c :: rest =>
    match m.update c with
    | .ok m' => updateAll m' rest
    | .error e => .error e

/-- The state variables referenced by an expression. -/
def Expr.stateVars : Expr → List String
  | .const _ => []
  | .stateVar n => [n]
  | .time => []
  | .add a b => a.stateVars ++ b.stateVars
  | .sub a b => a.stateVars ++ b.stateVars
  | .mul a b => a.stateVars ++ b.stateVars
  | .broadcast e _ => e.stateVars
  | .concat en es ep => en.stateVars ++ es.stateVars ++ ep.stateVars

/-- Every state variable referenced in any equation's right-hand side or in
any named-variable expression of the model. -/
def Model.referencedVars (m : Model) : List String :=
  (m.equations.map (fun p => p.2.stateVars)).flatten ++
    (m.namedVariables.map (fun p => p.2.stateVars)).flatten

/-- Modelled from the spec: `freeze()` — the finalization pass.  It checks
that every referenced state variable has its governing equation, failing
with a `MissingEquationError` otherwise, and returns the model marked
read-only. -/
def Model.freeze (m : Model) : Except AssemblyError Model :=
  if m.referencedVars.all (fun v => v ∈ eqKeys m.equations) then
    .ok { m with frozen := true }
  else .error .missingEquationError

/-- Modelled from the spec: `self.events.append(...)` as a guarded mutation
of the model (`spme.py` line 63); on a frozen model it fails with a
`FrozenModelError`. -/
def Model.appendEvent (m : Model) (e : Expr) : Except AssemblyError Model :=
  if m.frozen then .error .frozenModelError
  else .ok { m with events := m.events ++ [e] }

/-- Modelled from the spec: `self.variables.update(...)` as a guarded
mutation of the model (`spme.py` lines 76, 86, 102, 108); on a frozen model
it fails with a `FrozenModelError`. -/
def Model.updateVariables (m : Model) (vs : List (String × Expr)) :
    Except AssemblyError Model :=
  if m.frozen then .error .frozenModelError
  else .ok { m with namedVariables := mergeVariables m.namedVariables vs }

/-- Modelled from the spec: adding a single governing equation to the model;
on a frozen model it fails with a `FrozenModelError`, and a name collision
fails with a `DuplicateVariableError`. -/
def Model.addEquation (m : Model) (name : String) (rhs : Expr) :
    Except AssemblyError Model :=
  if m.frozen then .error .frozenModelError
  else if name ∈ eqKeys m.equations then .error .duplicateVariableError
  else .ok { m with equations := m.equations ++ [(name, rhs)] }

/-- Claim C4: once a state-variable name has been declared in a build pass,
declaring it again fails with a `DuplicateVariableError` — the registry
never silently keeps either declaration. -/
theorem declare_duplicate_fails (reg reg' : List String) (n : String)
    (h : declare reg n = Except.ok reg') :
    declare reg' n = Except.error AssemblyError.duplicateVariableError := by
  unfold declare at h ⊢
  by_cases hn : n ∈ reg
  · simp [hn] at h
  · rw [if_neg hn] at h
    injection h with h
    subst h
    rw [if_pos (by simp : n ∈ reg ++ [n])]

/-- Witness for C4: declaring "c_s_n" twice in the same build pass fails
with a `DuplicateVariableError`. -/
theorem declare_duplicate_fails_witness :
    declare [] "c_s_n" = Except.ok ["c_s_n"] ∧
    declare ["c_s_n"] "c_s_n" =
      Except.error AssemblyError.duplicateVariableError :=
  ⟨by decide, declare_duplicate_fails [] ["c_s_n"] "c_s_n" (by decide)⟩

/-- Anatomy of a successful merge step: the model was not frozen, the
state-variable names were collision-free, and the result appends equations
and events and merges the named-variable dict. -/
theorem update_ok_spec (m m' : Model) (c : Contribution)
    (h : m.update c = Except.ok m') :
    m.frozen = false ∧ (eqKeys m.equations ++ eqKeys c.equations).Nodup ∧
      m' = ⟨m.equations ++ c.equations,
            mergeVariables m.namedVariables c.namedVariables,
            m.events ++ c.events, false⟩ := by
  unfold Model.update at h
  by_cases hf : m.frozen = true
  · simp [hf] at h
  · rw [if_neg hf] at h
    by_cases hnd : (eqKeys m.equations ++ eqKeys c.equations).Nodup
    · rw [if_pos hnd] at h
      injection h with h
      exact ⟨Bool.not_eq_true _ ▸ hf, hnd, h.symm⟩
    · rw [if_neg hnd] at h
      exact absurd h (by simp)

/-- A merge step on an unfrozen model with collision-free state-variable
names succeeds, with the merged result. -/
theorem update_ok_of (m : Model) (c : Contribution)
    (hf : m.frozen = false)
    (hnd : (eqKeys m.equations ++ eqKeys c.equations).Nodup) :
    m.update c = Except.ok
      ⟨m.equations ++ c.equations,
       mergeVariables m.namedVariables c.namedVariables,
       m.events ++ c.events, false⟩ := by
  unfold Model.update
  rw [hf]
  simp [hnd]

/-- Claim C7: every merge appends the contribution's events at the end of
the model's event list, preserving both relative orders and performing no
deduplication. -/
theorem update_appends_events (m m' : Model) (c : Contribution)
    (h : m.update c = Except.ok m') :
    m'.events = m.events ++ c.events := by
  obtain ⟨-, -, h3⟩ := update_ok_spec m m' c h
  rw [h3]

/-- Witness for C7: merging an event list [event1] and then a contribution
with events [event2, event3] yields exactly [event1, event2, event3]. -/
theorem update_appends_events_witness :
    updateAll emptyModel [⟨[], [], [Expr.const 1]⟩] =
      Except.ok ⟨[], [], [Expr.const 1], false⟩ ∧
    (⟨[], [], [Expr.const 1], false⟩ : Model).update
        ⟨[], [], [Expr.const 2, Expr.const 3]⟩ =
      Except.ok ⟨[], [], [Expr.const 1, Expr.const 2, Expr.const 3], false⟩ ∧
    (⟨[], [], [Expr.const 1, Expr.const 2, Expr.const 3], false⟩ :
        Model).events =
      [Expr.const 1] ++ [Expr.const 2, Expr.const 3] :=
  ⟨by decide, by decide,
    update_appends_events ⟨[], [], [Expr.const 1], false⟩
      ⟨[], [], [Expr.const 1, Expr.const 2, Expr.const 3], false⟩
      ⟨[], [], [Expr.const 2, Expr.const 3]⟩ (by decide)⟩

/-- Claim C2: once `freeze()` has returned the model snapshot, every
mutation attempt — appending an event, updating the named-variable dict,
adding an equation, merging a further contribution — fails with a
`FrozenModelError`, and the frozen snapshot's contents are exactly those the
model had when frozen (a failed attempt produces no changed model). -/
theorem frozen_model_rejects_mutation (m0 m : Model)
    (h : m0.freeze = Except.ok m) :
    (∀ e, m.appendEvent e = Except.error AssemblyError.frozenModelError) ∧
    (∀ vs, m.updateVariables vs =
      Except.error AssemblyError.frozenModelError) ∧
    (∀ n rhs, m.addEquation n rhs =
      Except.error AssemblyError.frozenModelError) ∧
    (∀ c, m.update c = Except.error AssemblyError.frozenModelError) ∧
    m.equations = m0.equations ∧ m.namedVariables = m0.namedVariables ∧
    m.events = m0.events := by
  unfold Model.freeze at h
  by_cases hv : m0.referencedVars.all (fun v => v ∈ eqKeys m0.equations) = true
  · rw [if_pos hv] at h
    injection h with h
    subst h
    exact ⟨fun e => rfl, fun vs => rfl, fun n rhs => rfl, fun c => rfl,
      rfl, rfl, rfl⟩
  · rw [if_neg hv] at h
    exact absurd h (by simp)

/-- Witness for C2: a concrete model is frozen, after which appending an
event, updating the variable dict, adding an equation and merging a
contribution all fail with a `FrozenModelError`, the frozen contents being
those at freeze time. -/
theorem frozen_model_rejects_mutation_witness :
    (⟨[("c", Expr.const 1)], [("V", Expr.stateVar "c")], [Expr.const 0],
        false⟩ : Model).freeze =
      Except.ok ⟨[("c", Expr.const 1)], [("V", Expr.stateVar "c")],
        [Expr.const 0], true⟩ ∧
    (⟨[("c", Expr.const 1)], [("V", Expr.stateVar "c")], [Expr.const 0],
        true⟩ : Model).appendEvent (Expr.const 7) =
      Except.error AssemblyError.frozenModelError ∧
    (⟨[("c", Expr.const 1)], [("V", Expr.stateVar "c")], [Expr.const 0],
        true⟩ : Model).updateVariables [("V", Expr.const 2)] =
      Except.error AssemblyError.frozenModelError ∧
    (⟨[("c", Expr.const 1)], [("V", Expr.stateVar "c")], [Expr.const 0],
        true⟩ : Model).addEquation "d" (Expr.const 0) =
      Except.error AssemblyError.frozenModelError ∧
    (⟨[("c", Expr.const 1)], [("V", Expr.stateVar "c")], [Expr.const 0],
        true⟩ : Model).update ⟨[], [], []⟩ =
      Except.error AssemblyError.frozenModelError ∧
    (⟨[("c", Expr.const 1)], [("V", Expr.stateVar "c")], [Expr.const 0],
        true⟩ : Model).events =
      (⟨[("c", Expr.const 1)], [("V", Expr.stateVar "c")], [Expr.const 0],
        false⟩ : Model).events := by
  have h := frozen_model_rejects_mutation
    ⟨[("c", Expr.const 1)], [("V", Expr.stateVar "c")], [Expr.const 0],
      false⟩
    ⟨[("c", Expr.const 1)], [("V", Expr.stateVar "c")], [Expr.const 0],
      true⟩ (by decide)
  exact ⟨by decide, h.1 (Expr.const 7), h.2.1 [("V", Expr.const 2)],
    h.2.2.1 "d" (Expr.const 0), h.2.2.2.1 ⟨[], [], []⟩,
    h.2.2.2.2.2.2⟩

/-- Looking a key up after an insert-or-replace: the inserted key maps to
the new expression, every other key is untouched. -/
theorem lookupVar_upsert (vars : List (String × Expr)) (k' k : String)
    (v : Expr) :
    lookupVar (upsertVar vars k' v) k =
      if k = k' then some v else lookupVar vars k := by
  induction vars with
  | nil =>
    by_cases hk : k = k'
    · subst hk; simp [upsertVar, lookupVar]
    · simp [upsertVar, lookupVar, hk, Ne.symm hk]
  | cons p rest ih =>
    by_cases hp : p.1 = k'
    · simp only [upsertVar, if_pos hp]
      by_cases hk : k = k'
      · subst hk; simp [lookupVar]
      · have hpk : ¬ p.1 = k := fun hc => hk ((hc.symm.trans hp))
        simp [lookupVar, hk, Ne.symm hk, hpk]
    · simp only [upsertVar, if_neg hp]
      by_cases hpk : p.1 = k
      · have hk : ¬ k = k' := fun hc => hp (hpk.trans hc)
        simp [lookupVar, hpk, hk]
      · simp [lookupVar, hpk, ih]

/-- A successful dict lookup means the key is among the dict's keys. -/
theorem lookupVar_mem (vars : List (String × Expr)) (k : String) (v : Expr)
    (h : lookupVar vars k = some v) : k ∈ vars.map Prod.fst := by
  induction vars with
  | nil => simp [lookupVar] at h
  | cons p rest ih =>
    by_cases hp : p.1 = k
    · simp [hp]
    · rw [lookupVar, if_neg hp] at h
      simp [ih h]

/-- A key absent from the dict looks up to nothing. -/
theorem lookupVar_eq_none (vars : List (String × Expr)) (k : String)
    (h : k ∉ vars.map Prod.fst) : lookupVar vars k = none := by
  induction vars with
  | nil => rfl
  | cons p rest ih =>
    simp only [List.map_cons, List.mem_cons] at h
    push_neg at h
    rw [lookupVar, if_neg (fun hc => h.1 hc.symm)]
    exact ih h.2

/-- Merging a collision-free batch of named variables: a key the batch
defines looks up to the batch's expression, any other key keeps its previous
expression. -/
theorem lookupVar_mergeVariables (news : List (String × Expr))
    (vars : List (String × Expr)) (k : String)
    (hnd : (news.map Prod.fst).Nodup) :
    lookupVar (mergeVariables vars news) k =
      if k ∈ news.map Prod.fst then lookupVar news k
      else lookupVar vars k := by
  induction news generalizing vars with
  | nil => simp [mergeVariables, lookupVar]
  | cons p rest ih =>
    simp only [List.map_cons, List.nodup_cons] at hnd
    have hmerge : mergeVariables vars (p :: rest) =
        mergeVariables (upsertVar vars p.1 p.2) rest := rfl
    rw [hmerge, ih (upsertVar vars p.1 p.2) hnd.2, lookupVar_upsert]
    by_cases hrest : k ∈ rest.map Prod.fst
    · have hkp : ¬ k = p.1 := fun hc => hnd.1 (hc ▸ hrest)
      have hpk : ¬ p.1 = k := fun hc => hkp hc.symm
      rw [if_pos hrest, if_pos (by simp [hrest]), lookupVar, if_neg hpk]
    · by_cases hkp : k = p.1
      · rw [if_neg hrest, if_pos hkp, if_pos (by simp [hkp]), lookupVar,
          if_pos hkp.symm]
      · rw [if_neg hrest, if_neg hkp,
          if_neg (by simp [List.mem_cons, hkp, hrest])]

/-- Claim C3: merging contributions A then B, (i) a named variable defined
by B (in particular one both define) ends up with B's expression — last
writer wins; (ii) a named variable defined by A and not by B keeps A's
expression; (iii) for contributions with disjoint state-variable names the
merge also succeeds in the opposite order and the equation lists of the two
orders have the same set-content (they are permutations). -/
theorem update_override_semantics (m mA mAB : Model) (A B : Contribution)
    (hA : m.update A = Except.ok mA) (hB : mA.update B = Except.ok mAB)
    (hAnd : (A.namedVariables.map Prod.fst).Nodup)
    (hBnd : (B.namedVariables.map Prod.fst).Nodup) :
    (∀ X vB, lookupVar B.namedVariables X = some vB →
      lookupVar mAB.namedVariables X = some vB) ∧
    (∀ X vA, lookupVar A.namedVariables X = some vA →
      X ∉ B.namedVariables.map Prod.fst →
      lookupVar mAB.namedVariables X = some vA) ∧
    ((∀ k ∈ eqKeys A.equations, k ∉ eqKeys B.equations) →
      updateAll m [B, A] = Except.ok
        ⟨m.equations ++ B.equations ++ A.equations,
         mergeVariables (mergeVariables m.namedVariables B.namedVariables)
           A.namedVariables,
         m.events ++ B.events ++ A.events, false⟩ ∧
      mAB.equations.Perm
        (m.equations ++ B.equations ++ A.equations)) := by
  obtain ⟨hmf, hndA, hmA⟩ := update_ok_spec m mA A hA
  obtain ⟨-, hndB, hmAB⟩ := update_ok_spec mA mAB B hB
  subst hmA
  subst hmAB
  refine ⟨?_, ?_, ?_⟩
  · intro X vB hX
    rw [lookupVar_mergeVariables B.namedVariables _ X hBnd,
      if_pos (lookupVar_mem B.namedVariables X vB hX)]
    exact hX
  · intro X vA hX hXB
    rw [lookupVar_mergeVariables B.namedVariables _ X hBnd, if_neg hXB,
      lookupVar_mergeVariables A.namedVariables _ X hAnd,
      if_pos (lookupVar_mem A.namedVariables X vA hX)]
    exact hX
  · intro _
    rw [eqKeys_append] at hndB
    have hperm : (eqKeys m.equations ++ eqKeys A.equations) ++
        eqKeys B.equations |>.Perm
        ((eqKeys m.equations ++ eqKeys B.equations) ++
          eqKeys A.equations) := by
      rw [List.append_assoc, List.append_assoc]
      exact (@List.perm_append_comm _ (eqKeys A.equations)
        (eqKeys B.equations)).append_left (eqKeys m.equations)
    have hndBA : ((eqKeys m.equations ++ eqKeys B.equations) ++
        eqKeys A.equations).Nodup := hperm.nodup hndB
    have hndB1 : (eqKeys m.equations ++ eqKeys B.equations).Nodup :=
      List.Nodup.sublist (List.sublist_append_left _ _) hndBA
    have hstep1 := update_ok_of m B hmf hndB1
    have hstep2 : (⟨m.equations ++ B.equations,
        mergeVariables m.namedVariables B.namedVariables,
        m.events ++ B.events, false⟩ : Model).update A = Except.ok
        ⟨m.equations ++ B.equations ++ A.equations,
         mergeVariables (mergeVariables m.namedVariables B.namedVariables)
           A.namedVariables,
         m.events ++ B.events ++ A.events, false⟩ := by
      have := update_ok_of
        ⟨m.equations ++ B.equations,
         mergeVariables m.namedVariables B.namedVariables,
         m.events ++ B.events, false⟩ A rfl
        (by
          show ((eqKeys (m.equations ++ B.equations)) ++
            eqKeys A.equations).Nodup
          rw [eqKeys_append]
          exact hndBA)
      simpa using this
    constructor
    · show updateAll m [B, A] = _
      unfold updateAll
      rw [hstep1]
      unfold updateAll
      rw [hstep2]
      rfl
    · show ((m.equations ++ A.equations) ++ B.equations).Perm _
      rw [List.append_assoc, List.append_assoc]
      exact (@List.perm_append_comm _ A.equations B.equations).append_left
        m.equations

/-- A first demo contribution: one equation for "u", named variables "X"
and "Y", one event. -/
def contribA : Contribution :=
  ⟨[("u", Expr.const 0)], [("X", Expr.const 1), ("Y", Expr.const 3)],
   [Expr.const 4]⟩

/-- A second demo contribution: one equation for "w" and an overriding
definition of the named variable "X". -/
def contribB : Contribution :=
  ⟨[("w", Expr.const 0)], [("X", Expr.const 2)], []⟩

/-- The model after merging `contribA` into the empty model. -/
def modelA : Model :=
  ⟨[("u", Expr.const 0)], [("X", Expr.const 1), ("Y", Expr.const 3)],
   [Expr.const 4], false⟩

/-- The model after merging `contribA` and then `contribB`. -/
def modelAB : Model :=
  ⟨[("u", Expr.const 0), ("w", Expr.const 0)],
   [("X", Expr.const 2), ("Y", Expr.const 3)], [Expr.const 4], false⟩

/-- Witness for C3: in the A-then-B merge both contributions define "X" and
the result keeps B's expression, "Y" keeps A's expression, and with disjoint
state-variable names the B-then-A merge succeeds with the same equation
set-content. -/
theorem update_override_semantics_witness :
    lookupVar modelAB.namedVariables "X" = some (Expr.const 2) ∧
    lookupVar modelAB.namedVariables "Y" = some (Expr.const 3) ∧
    updateAll emptyModel [contribB, contribA] = Except.ok
      ⟨emptyModel.equations ++ contribB.equations ++ contribA.equations,
       mergeVariables
         (mergeVariables emptyModel.namedVariables contribB.namedVariables)
         contribA.namedVariables,
       emptyModel.events ++ contribB.events ++ contribA.events, false⟩ ∧
    modelAB.equations.Perm
      (emptyModel.equations ++ contribB.equations ++ contribA.equations) := by
  have h := update_override_semantics emptyModel modelA modelAB
    contribA contribB (by decide) (by decide) (by decide) (by decide)
  exact ⟨h.1 "X" (Expr.const 2) (by decide),
    h.2.1 "Y" (Expr.const 3) (by decide) (by decide),
    (h.2.2 (by decide)).1, (h.2.2 (by decide)).2⟩

/-- Merge chains preserve collision-freedom of the governed state-variable
names: successful `update` steps only ever append collision-checked
batches. -/
theorem updateAll_nodup (cs : List Contribution) (m m' : Model)
    (h : updateAll m cs = Except.ok m')
    (hm : (eqKeys m.equations).Nodup) :
    (eqKeys m'.equations).Nodup := by
  induction cs generalizing m with
  | nil =>
    unfold updateAll at h
    injection h with h
    subst h
    exact hm
  | cons c rest ih =>
    unfold updateAll at h
    cases hc : m.update c with
    | ok m1 =>
      rw [hc] at h
      obtain ⟨-, hnd, hm1⟩ := update_ok_spec m m1 c hc
      refine ih m1 h ?_
      rw [hm1]
      show (eqKeys (m.equations ++ c.equations)).Nodup
      rw [eqKeys_append]
      exact hnd
    | error e =>
      rw [hc] at h
      exact absurd h (by simp)

/-- Claim C1: for a model assembled by merging any valid batch of submodel
contributions, `freeze()` succeeds iff every state variable referenced in
any equation or named-variable expression has exactly one governing
equation; when some referenced state variable is missing its governing
equation, `freeze()` fails with a `MissingEquationError` — an error a merge
step itself never raises (it is raised at finalize time, not merge time). -/
theorem freeze_validation (cs : List Contribution) (m : Model)
    (h : updateAll emptyModel cs = Except.ok m) :
    ((∃ mf, m.freeze = Except.ok mf) ↔
      ∀ v ∈ m.referencedVars, (eqKeys m.equations).count v = 1) ∧
    ((∃ v ∈ m.referencedVars, v ∉ eqKeys m.equations) →
      m.freeze = Except.error AssemblyError.missingEquationError) ∧
    (∀ (m' : Model) (c : Contribution),
      m'.update c ≠ Except.error AssemblyError.missingEquationError) := by
  have hnd : (eqKeys m.equations).Nodup :=
    updateAll_nodup cs emptyModel m h (by simp [emptyModel, eqKeys])
  refine ⟨⟨?_, ?_⟩, ?_, ?_⟩
  · rintro ⟨mf, hmf⟩ v hv
    unfold Model.freeze at hmf
    by_cases hall :
        m.referencedVars.all (fun v => v ∈ eqKeys m.equations) = true
    · have hmem : v ∈ eqKeys m.equations := by
        simpa using List.all_eq_true.mp hall v hv
      exact List.count_eq_one_of_mem hnd hmem
    · rw [if_neg hall] at hmf
      exact absurd hmf (by simp)
  · intro hcount
    have hall :
        m.referencedVars.all (fun v => v ∈ eqKeys m.equations) = true := by
      rw [List.all_eq_true]
      intro v hv
      have h1 : 0 < (eqKeys m.equations).count v := by
        rw [hcount v hv]
        exact Nat.one_pos
      simpa using List.count_pos_iff.mp h1
    exact ⟨_, by unfold Model.freeze; rw [if_pos hall]⟩
  · rintro ⟨v, hv, hnot⟩
    unfold Model.freeze
    rw [if_neg]
    intro hall
    exact hnot (by simpa using List.all_eq_true.mp hall v hv)
  · intro m' c hcon
    unfold Model.update at hcon
    by_cases hf : m'.frozen = true
    · rw [if_pos hf] at hcon
      exact absurd hcon (by simp)
    · rw [if_neg hf] at hcon
      by_cases hnd2 : (eqKeys m'.equations ++ eqKeys c.equations).Nodup
      · rw [if_pos hnd2] at hcon
        exact absurd hcon (by simp)
      · rw [if_neg hnd2] at hcon
        exact absurd hcon (by simp)

/-- A contribution whose equation's right-hand side references the
state variable "d", which no contribution governs. -/
def contribMissing : Contribution :=
  ⟨[("c", Expr.stateVar "d")], [], []⟩

/-- The model after merging only `contribMissing`. -/
def modelMissing : Model :=
  ⟨[("c", Expr.stateVar "d")], [], [], false⟩

/-- Witness for C1: a concrete single-contribution merge whose equation
references the ungoverned state variable "d"; `freeze()` fails with a
`MissingEquationError`. -/
theorem freeze_validation_witness :
    updateAll emptyModel [contribMissing] = Except.ok modelMissing ∧
    "d" ∈ modelMissing.referencedVars ∧
    "d" ∉ eqKeys modelMissing.equations ∧
    modelMissing.freeze =
      Except.error AssemblyError.missingEquationError :=
  ⟨by decide, by decide, by decide,
    (freeze_validation [contribMissing] modelMissing (by decide)).2.1
      ⟨"d", by decide, by decide⟩⟩

/-- Modelled from the spec: the contribution of the negative-particle
submodel built by `set_differential_system(c_s_n, j_n, broadcast=True)`
(`pybamm.particle.Standard` is not part of the sources): a governing
equation for "c_s_n" and derived named variables. -/
def negativeParticleContribution : Contribution :=
  ⟨[("c_s_n", Expr.stateVar "c_s_n")],
   [("Negative particle surface concentration", Expr.stateVar "c_s_n")],
   []⟩

/-- Modelled from the spec: the contribution of the positive-particle
submodel built by `set_differential_system(c_s_p, j_p, broadcast=True)`. -/
def positiveParticleContribution : Contribution :=
  ⟨[("c_s_p", Expr.stateVar "c_s_p")],
   [("Positive particle surface concentration", Expr.stateVar "c_s_p")],
   []⟩

/-- Modelled from the spec: the contribution of the Stefan-Maxwell
electrolyte-diffusion submodel built by
`set_differential_system(c_e, reactions)`
(`pybamm.electrolyte_diffusion.StefanMaxwell` is not part of the sources).
The spec records that post-processing submodels refine the
already-registered name "Terminal voltage", so the merged
pre-post-processing contributions register that name. -/
def electrolyteDiffusionContribution : Contribution :=
  ⟨[("c_e", Expr.stateVar "c_e")],
   [("Electrolyte concentration", Expr.stateVar "c_e"),
    ("Terminal voltage",
      Expr.sub (Expr.stateVar "c_s_p") (Expr.stateVar "c_s_n"))],
   []⟩

/-- The model after `self.update(negative_particle_model,
positive_particle_model, electrolyte_diffusion_model)` at `spme.py`
lines 55-59. -/
def spmeMerged : Model :=
  ⟨[("c_s_n", Expr.stateVar "c_s_n"), ("c_s_p", Expr.stateVar "c_s_p"),
    ("c_e", Expr.stateVar "c_e")],
   [("Negative particle surface concentration", Expr.stateVar "c_s_n"),
    ("Positive particle surface concentration", Expr.stateVar "c_s_p"),
    ("Electrolyte concentration", Expr.stateVar "c_e"),
    ("Terminal voltage",
      Expr.sub (Expr.stateVar "c_s_p") (Expr.stateVar "c_s_n"))],
   [], false⟩

/-- The voltage-cutoff event `voltage - param.voltage_low_cut` built at
`spme.py` lines 61-63 (the cutoff parameter as a schematic constant). -/
def voltageCutoffEvent : Expr :=
  Expr.sub (Expr.sub (Expr.stateVar "c_s_p") (Expr.stateVar "c_s_n"))
    (Expr.const 3)

/-- Claim C9: after `SPMe.__init__` merges the negative-particle,
positive-particle and electrolyte-diffusion contributions via `update`, the
model's named-variable dict contains the key "Terminal voltage", so the
subsequent lookup `self.variables["Terminal voltage"]` and the
voltage-cutoff event append both succeed. -/
theorem spme_update_registers_terminal_voltage :
    updateAll emptyModel
      [negativeParticleContribution, positiveParticleContribution,
       electrolyteDiffusionContribution] = Except.ok spmeMerged ∧
    lookupVar spmeMerged.namedVariables "Terminal voltage" =
      some (Expr.sub (Expr.stateVar "c_s_p") (Expr.stateVar "c_s_n")) ∧
    spmeMerged.appendEvent voltageCutoffEvent =
      Except.ok ⟨spmeMerged.equations, spmeMerged.namedVariables,
        [voltageCutoffEvent], false⟩ := by
  refine ⟨by decide, by decide, by decide⟩

/-- Modelled from the spec: the extrapolation policy a `pybamm.Interpolant`
is constructed with (the class is not part of the sources — only the caller
`test_interpolant.py` is): boundary clamping, or linear extension of the
boundary segment. -/
inductive Extrapolation where
  | clamp
  | linearExtend
  deriving DecidableEq, Repr

/-- Modelled from the spec: `pybamm.Interpolant` wraps a piecewise lookup
of (x, y) sample pairs (x ascending) with a query expression (for the
drive-cycle caller, `pybamm.t`) and the extrapolation policy chosen at
construction. -/
structure Interpolant where
  samples : List (Rat × Rat)
  query : Expr
  extrapolation : Extrapolation
  deriving DecidableEq, Repr

/-- The straight line through two sample points, evaluated at `q`. -/
def lineThrough (p1 p2 : Rat × Rat) (q : Rat) : Rat :=
  p1.2 + (p2.2 - p1.2) * (q - p1.1) / (p2.1 - p1.1)

/-- Piecewise-linear lookup within the sample range. -/
def interpPiecewise : List (Rat × Rat) → Rat → Rat
  | [], _ => 0
  | [(_, y)], _ => y
  | (x0, y0) :: (x1, y1) :: rest, q =>
    if q ≤ x1 then lineThrough (x0, y0) (x1, y1) q
    else interpPiecewise ((x1, y1) :: rest) q

/-- Modelled from the spec: interpolant evaluation at a query value.
In-range queries use the piecewise lookup; out-of-range queries follow the
extrapolation policy the interpolant was constructed with — clamping to the
boundary sample value, or extending the boundary segment linearly. -/
def Interpolant.evalAt (it : Interpolant) (q : Rat) : Rat :=
  match it.samples with
  | [] => 0
  | p0 :: rest =>
    if q < p0.1 then
      match it.extrapolation with
      | .clamp => p0.2
      | .linearExtend =>
        match rest with
        | [] => p0.2
        | p1 :: _ => lineThrough p0 p1 q
    else if (rest.getLastD p0).1 < q then
      match it.extrapolation with
      | .clamp => (rest.getLastD p0).2
      | .linearExtend =>
        lineThrough ((p0 :: rest).dropLast.getLastD p0)
          (rest.getLastD p0) q
    else interpPiecewise (p0 :: rest) q

/-- Claim C8: an interpolant carries its (x, y) sample pairs, query
expression and extrapolation policy from construction, and a query value
outside the sample range evaluates according to that constructed policy —
with the clamp policy, to the boundary sample value on either side. -/
theorem interpolant_out_of_range_clamps (it : Interpolant) (q : Rat)
    (p0 : Rat × Rat) (rest : List (Rat × Rat))
    (hs : it.samples = p0 :: rest)
    (hpol : it.extrapolation = Extrapolation.clamp)
    (hle : p0.1 ≤ (rest.getLastD p0).1) :
    (q < p0.1 → it.evalAt q = p0.2) ∧
    ((rest.getLastD p0).1 < q → it.evalAt q = (rest.getLastD p0).2) := by
  have he : it.evalAt q =
      (if q < p0.1 then p0.2
       else if (rest.getLastD p0).1 < q then (rest.getLastD p0).2
       else interpPiecewise (p0 :: rest) q) := by
    unfold Interpolant.evalAt
    rw [hs, hpol]
  rw [he]
  constructor
  · intro hq
    rw [if_pos hq]
  · intro hq
    have hnot : ¬ q < p0.1 := not_lt.mpr (le_trans hle (le_of_lt hq))
    rw [if_neg hnot, if_pos hq]

/-- The concrete drive-cycle interpolant of `test_interpolant.py`: a
constant 0.7 current over the time samples, queried at `pybamm.t`, with the
boundary-clamping policy. -/
def driveCycleInterpolant : Interpolant :=
  ⟨[(0, 7/10), (5000, 7/10)], Expr.time, Extrapolation.clamp⟩

/-- Witness for C8: the drive-cycle interpolant clamps to the boundary
sample value 0.7 both below and above its sample range. -/
theorem interpolant_out_of_range_clamps_witness :
    driveCycleInterpolant.evalAt (-1) = 7/10 ∧
    driveCycleInterpolant.evalAt 6000 = 7/10 := by
  have h1 := interpolant_out_of_range_clamps driveCycleInterpolant (-1)
    (0, 7/10) [(5000, 7/10)] rfl rfl (by norm_num)
  have h2 := interpolant_out_of_range_clamps driveCycleInterpolant 6000
    (0, 7/10) [(5000, 7/10)] rfl rfl (by norm_num)
  exact ⟨h1.1 (by norm_num), h2.2 (by norm_num)⟩

/-- The environment `compile_KLU` (src/setup.py lines 257-290) observes:
whether `subprocess.run(["cmake", "--version"])` raises an `OSError`,
whether opening `pybind11/tools/pybind11Tools.cmake` under the project
directory raises a `FileNotFoundError`, and the `platform.system()`
string. -/
structure BuildEnv where
  cmakeRaisesOSError : Bool
  pybind11OpenRaises : Bool
  systemName : String
  deriving DecidableEq, Repr

/-- The `windows` flag computed and logged by `compile_KLU`:
`(not system()) or system() == "Windows"`, true when `platform.system()`
returns the empty string or "Windows". -/
def windowsFlag (env : BuildEnv) : Bool :=
  (env.systemName == "") || (env.systemName == "Windows")

/-- Embedding of `compile_KLU` from src/setup.py: `CMakeFound` and
`PyBind11Found` start true and flip when the respective call raises; the
`windows` flag is computed (and logged) but the function returns just
`CMakeFound and PyBind11Found`. -/
def compile_KLU (env : BuildEnv) : Bool :=
  let CMakeFound := !env.cmakeRaisesOSError
  let PyBind11Found := !env.pybind11OpenRaises
  let _windows := windowsFlag env
  CMakeFound && PyBind11Found

/-- Claim C10: `compile_KLU` returns True iff running `cmake --version`
raises no `OSError` and the pybind11 tools file opens; the platform check
is computed but has no effect on the returned value, so the KLU extension
is selected on Windows as well. -/
theorem compile_KLU_ignores_platform (env : BuildEnv) :
    (compile_KLU env = true ↔
      env.cmakeRaisesOSError = false ∧ env.pybind11OpenRaises = false) ∧
    (∀ s, compile_KLU ⟨env.cmakeRaisesOSError, env.pybind11OpenRaises, s⟩ =
      compile_KLU env) ∧
    compile_KLU ⟨false, false, "Windows"⟩ = true ∧
    windowsFlag ⟨false, false, "Windows"⟩ = true := by
  obtain ⟨a, b, s⟩ := env
  refine ⟨?_, fun s => rfl, by decide, by decide⟩
  cases a <;> cases b <;> simp [compile_KLU]

end PyBaMM
